import Mathlib

/-!
Verification of the `node-cups-printer` driver.

The driver shells out to the CUPS command line tools (`lpstat`, `lp`),
parses their text output into printer records, and caches the result in a
process-wide directory object.  This file gives a shallow embedding of the
driver's pure logic:

* JavaScript strings are modelled as `List Char` (`JSStr`); the JS string
  operations used by the source (`split`, `includes`, `startsWith`, `slice`,
  `trim`, `toLowerCase`, unary `+` numeric coercion) are modelled below.
* Process execution is abstracted as a function `List String → Except JSError JSStr`
  from a command line to either captured stdout or an execution error, which is
  exactly the observable behaviour of `runCommand` / `runCommandSync` /
  `runCommandPipe` in the source.
* Promise settlement is modelled by `PromiseState`: a promise is `resolved`,
  `rejected`, or still `pending` (never settled).
-/

set_option autoImplicit false

namespace Cups

/-- JavaScript strings, modelled as their list of characters. -/
abbrev JSStr := List Char

/-- `isPre p l` : does `p` occur at the very start of `l`?
(Models JS `String.prototype.startsWith`.) -/
def isPre : JSStr → JSStr → Bool
  | [], _ => true
  | _ :: _, [] => false
  | a :: as, b :: bs => a == b && isPre as bs

/-- `occurs p l` : does `p` occur as a contiguous substring of `l`?
(Models JS `String.prototype.includes`.) -/
def occurs (p : JSStr) : JSStr → Bool
  | [] => p.isEmpty
  | l@(_ :: t) => isPre p l || occurs p t

/-- Fuel-driven splitter on a (non-empty) separator sequence, matching the
semantics of JS `String.prototype.split` with a string separator.  The fuel is
always instantiated with `l.length + 1`, which is sufficient; the `0` case is
never reached then. -/
def splitSeqF (sep : JSStr) : Nat → JSStr → List JSStr
  | 0, l => [l]
  | _ + 1, [] => [[]]
  | f + 1, l@(h :: t) =>
    if sep ≠ [] ∧ isPre sep l then
      [] :: splitSeqF sep f (l.drop sep.length)
    else
      match splitSeqF sep f t with
      | [] => [[h]]
      | p :: ps => (h :: p) :: ps

/-- JS `l.split(sep)` for a non-empty string separator. -/
def jsSplitSeq (sep l : JSStr) : List JSStr :=
  splitSeqF sep (l.length + 1) l

/-- JS `l.split(sep)` where the separator is given as a Lean string literal. -/
def jsSplit (sep : String) (l : JSStr) : List JSStr :=
  jsSplitSeq sep.data l

/-- Whitespace characters removed by JS `String.prototype.trim`. -/
def isWsChar (c : Char) : Bool :=
  c == ' ' || c == '\t' || c == '\n' || c == '\r' ||
  c == '\x0b' || c == '\x0c'

/-- JS `String.prototype.trim`. -/
def jsTrim (l : JSStr) : JSStr :=
  ((l.dropWhile isWsChar).reverse.dropWhile isWsChar).reverse

/-- JS `String.prototype.toLowerCase` (ASCII fragment, sufficient for the
document-type enumeration used by the source). -/
def jsLower (l : JSStr) : JSStr :=
  l.map Char.toLower

/-- Decimal digit value of a character, if it is a digit. -/
def digitVal (c : Char) : Option Nat :=
  if '0' ≤ c ∧ c ≤ '9' then some (c.toNat - 48) else none

/-- Value of a non-empty all-digit string, `none` otherwise. -/
def digitsToNat (l : JSStr) : Option Nat :=
  if l = [] then none
  else l.foldl (fun acc c =>
    match acc, digitVal c with
    | some a, some d => some (a * 10 + d)
    | _, _ => none) (some 0)

/-- JS unary `+` applied to a string (ToNumber), restricted to the integer
fragment: surrounding whitespace is trimmed, the empty string is `0`, an
optional sign followed by digits is that integer, and anything else is NaN
(`none`).  Non-integer numeric literals (decimals, exponents, hex,
`Infinity`) never occur in the confirmation texts at issue and are modelled
as NaN. -/
def jsToNumber (s : JSStr) : Option Int :=
  let t := jsTrim s
  if t = [] then some 0
  else match t with
  | '-' :: rest => (digitsToNat rest).map (fun n => -(n : Int))
  | '+' :: rest => (digitsToNat rest).map (fun n => (n : Int))
  | _ => (digitsToNat t).map (fun n => (n : Int))

/-- Decimal digits of `n` (most significant first), fuel-driven; fuel `n`
is always sufficient. -/
def natDigitsF : Nat → Nat → List Char
  | 0, _ => []
  | _ + 1, 0 => []
  | f + 1, n => natDigitsF f (n / 10) ++ [Char.ofNat (48 + n % 10)]

/-- Decimal rendering of a natural number (JS number-to-string coercion for
the integers appearing in the source: copies, port, quality, orientation). -/
def natToStr (n : Nat) : JSStr :=
  if n = 0 then ['0'] else natDigitsF n n

/-- Decimal rendering of an integer. -/
def intToStr : Int → JSStr
  | Int.ofNat n => natToStr n
  | Int.negSucc n => '-' :: natToStr (n + 1)

/-! ## Data model -/

/-- An error value.  `runCommand`/`runCommandSync` report failures (non-zero
exit or spawn failure) as an error carrying a descriptive message; validation
failures in `lp_print` throw `Error` objects.  Only the message is ever
observed. -/
structure JSError where
  message : String
deriving DecidableEq

/-- The `data` payload of a print request: a JS string or a `Buffer`.
Truthiness differs: an empty string is falsy, while a `Buffer` (even empty)
is truthy. -/
inductive JSData where
  | str (s : JSStr)
  | buf (bytes : List Nat)
deriving DecidableEq

/-- JS truthiness of an optional string field. -/
def truthyStr : Option JSStr → Bool
  | none => false
  | some s => !s.isEmpty

/-- JS truthiness of an optional string-or-Buffer field. -/
def truthyData : Option JSData → Bool
  | none => false
  | some (.str s) => !s.isEmpty
  | some (.buf _) => true

/-- JS truthiness of an optional number field (`0` is falsy). -/
def truthyNat : Option Nat → Bool
  | none => false
  | some n => n ≠ 0

/-- `PrinterDetails` record produced by `extractPrinters`: name, default
flag, and an ordered string-to-string options map (modelled as an
association list; the JS object's insertion order is the list order, and all
keys inserted by the source are pairwise distinct). -/
structure PrinterDetails where
  name : JSStr
  isDefault : Bool
  options : List (JSStr × JSStr)
deriving DecidableEq

/-- `PrintOptions` as destructured by `lp_print`.  `port`, `quality`,
`orientation` and `copies` are numbers in the source (quality/orientation may
also be numeric strings; the numeric form is modelled). -/
structure PrintOptions where
  printer : JSStr
  type : Option JSStr := none
  dataField : Option JSData := none
  file : Option JSStr := none
  host : Option JSStr := none
  port : Option Nat := none
  username : Option JSStr := none
  encryption : Bool := false
  title : Option JSStr := none
  quality : Option Nat := none
  orientation : Option Nat := none
  copies : Option Nat := none
  args : Option (List JSStr) := none
deriving DecidableEq

/-- How the single `lp` process of a submission is fed: `direct` runs
`runCommand` with the file path as the final positional argument, `piped`
runs `runCommandPipe` streaming the data payload. -/
inductive SpawnKind where
  | direct (file : JSStr)
  | piped (payload : JSData)
deriving DecidableEq

/-- The one external `lp` invocation a valid submission performs: its full
argument list and how it is fed. -/
structure LpSpawn where
  args : List JSStr
  kind : SpawnKind
deriving DecidableEq

/-- Settlement state of a JS promise: resolved with a value, rejected with an
error, or never settled. -/
inductive PromiseState (α : Type) where
  | resolved (v : α)
  | rejected (e : JSError)
  | pending
deriving DecidableEq

/-! ## Job submission translator (`lp_print`, src/unnamed/part_000 lines 130-180) -/

/-- One conditional `args.push(...)` step: append `seg` when `c` holds. -/
def pushIf (c : Bool) (seg : List JSStr) (a : List JSStr) : List JSStr :=
  if c then a ++ seg else a

/-- Run a sequence of conditional pushes left to right. -/
def pushIfs (steps : List (Bool × List JSStr)) (a : List JSStr) : List JSStr :=
  steps.foldl (fun acc cs => pushIf cs.1 cs.2 acc) a

/-- `host` combined with `port`, from
`options.host ? [options.host, options.port ? options.port : ''].filter(Boolean).join(':') : ''`:
empty/absent host gives the empty string; a truthy port is appended as
`:<port>`. -/
def hostCombined (h : Option JSStr) (p : Option Nat) : JSStr :=
  match h with
  | none => []
  | some hs =>
    if hs = [] then []
    else match p with
      | some n => if n = 0 then hs else hs ++ ":".data ++ natToStr n
      | none => hs

/-- The nine conditional pushes of `lp_print`, in source order (lines
148-156 of part_000). -/
def lp_print_steps (o : PrintOptions) : List (Bool × List JSStr) :=
  let type := jsLower ((o.type.getD "RAW".data))
  let host := hostCombined o.host o.port
  [ (!truthyStr o.file, ["-o".data, type]),
    (truthyNat o.copies, ["-n".data, natToStr (o.copies.getD 0)]),
    (!o.printer.isEmpty, ["-d".data, o.printer]),
    (!host.isEmpty, ["-h".data, host]),
    (truthyStr o.username, ["-U".data, o.username.getD []]),
    (truthyStr o.title, ["-T".data, o.title.getD []]),
    (truthyNat o.quality, ["-o".data, "print-quality=".data ++ natToStr (o.quality.getD 0)]),
    (truthyNat o.orientation, ["-o".data, "orientation-requested=".data ++ natToStr (o.orientation.getD 0)]),
    (o.encryption, ["-E".data]) ]

/-- The flag-construction portion of `lp_print`: starting from the
caller-supplied `args` array (`options.args || []`), append each generated
flag in source order.  The source performs these appends by mutating the
caller's array in place with `args.push(...)`. -/
def lp_print_buildArgs (callerArgs : List JSStr) (o : PrintOptions) : List JSStr :=
  pushIfs (lp_print_steps o) callerArgs

/-- Job-id extraction performed by the `callback` inside `lp_print`
(part_000 lines 158-164): split the confirmation text on spaces, drop empty
tokens; if more than 3 tokens remain take the third-from-last, otherwise the
whole response; then take the substring after the last `-` and coerce it to
a number with unary `+` (NaN is `none`). -/
def extractJobId (response : JSStr) : Option Int :=
  let toks := (jsSplit " " response).filter (fun t => !t.isEmpty)
  let jobIdLong := if toks.length > 3 then toks.getD (toks.length - 3) [] else response
  let parts := jsSplit "-" jobIdLong
  jsToNumber (parts.getD (parts.length - 1) [])

/-- `lp_print` up to (but not including) process execution: validation, flag
construction, and the choice of submission mode.  A thrown validation error
is the rejection value of the returned promise; `.ok` carries the single
`lp` spawn the call performs.  This is everything `lp_print` does
synchronously. -/
def lp_print_plan (o : PrintOptions) : Except JSError LpSpawn :=
  if o.printer.isEmpty then .error ⟨"No printer provided"⟩
  else if !truthyData o.dataField && !truthyStr o.file then .error ⟨"No data or file provided"⟩
  else
    let args := lp_print_buildArgs (o.args.getD []) o
    if truthyStr o.file then .ok ⟨args ++ ["--".data, o.file.getD []], .direct (o.file.getD [])⟩
    else if truthyData o.dataField then .ok ⟨args, .piped (o.dataField.getD (.str []))⟩
    else .error ⟨"No data or file provided"⟩

/-- View of `Except` as a sum, used only to decide equality of results. -/
def exceptToSum {ε α : Type} : Except ε α → ε ⊕ α
  | .error e => .inl e
  | .ok a => .inr a

instance {ε α : Type} [DecidableEq ε] [DecidableEq α] : DecidableEq (Except ε α) :=
  fun a b =>
    decidable_of_iff (exceptToSum a = exceptToSum b)
      (by cases a <;> cases b <;> simp [exceptToSum])

/-- Spawns performed by a submission: none when validation rejects, exactly
the planned one otherwise (the throws in `lp_print` happen before any call
to `runCommand`/`runCommandPipe`). -/
def spawnsOf : Except JSError LpSpawn → List LpSpawn
  | .error _ => []
  | .ok p => [p]

/-- Settlement of the promise returned by `lp_print`, given the outcome
`exec` of the underlying command execution.  Validation errors reject the
promise (the `try`/`catch` wrapper calls `reject(err)`).  On a valid
request the source runs `runCommand('lp', ...args).then(callback)` (resp.
`runCommandPipe`): only a fulfillment handler is attached, so when the
command fails the inner rejection is never forwarded and the returned
promise stays unsettled (`pending`). -/
def lp_print_outcome (o : PrintOptions) (exec : Except JSError JSStr) :
    PromiseState (Option Int) :=
  match lp_print_plan o with
  | .error e => .rejected e
  | .ok _ =>
    match exec with
    | .ok response => .resolved (extractJobId response)
    | .error _ => .pending

/-! ## Printer record extractor (`extractPrinters`, part_000 lines 228-302) -/

/-- The raw text responses of the five `lpstat` status queries, keyed as in
the source's `stats` object.  The source's key `default` is spelled
`defaultPrinter` here (after the local name it is destructured into). -/
structure LPSTAT_out where
  printers : JSStr
  accepting : JSStr
  addresses : JSStr
  defaultPrinter : JSStr
  details : JSStr
deriving DecidableEq

/-- The two descriptive-detail extraction rules (`lpstat_detail_ki`):
options key and the row label prefix it is read from. -/
def lpstat_detail_ki : List (JSStr × JSStr) :=
  [("printer-info".data, "Description: ".data),
   ("printer-location".data, "Location: ".data)]

/-- The per-name body of the `words[0] === 'printer'` branch of
`extractPrinters`: cross-reference the other four query texts by `name` and
assemble the record.  Every field is a pure function of the name and the raw
texts, so the inline computation of the source is factored out here.

* `isDefault` is `defaultPrinter.includes(name)`.
* The device address is the last space-separated piece of the first
  `addresses` line containing `"<name>: "` (the found line is necessarily
  non-empty, making the source's truthiness test on it equivalent to the
  `Option` match).
* The accepting flag is `'true'` iff some `accepting` line contains
  `"<name> accepting"`.
* Descriptive info comes from the first block of `details.split('\nprinter')`
  (empty blocks dropped by `.filter(Boolean)`) containing `"<name> "`: its
  lines are trimmed, empties dropped, and each rule of `lpstat_detail_ki`
  contributes the trimmed remainder of the first row starting with its
  label. -/
def mkPrinterRecord (stats : LPSTAT_out) (name : JSStr) : PrinterDetails :=
  let addressLines := jsSplit "\n" stats.addresses
  let acceptingLines := jsSplit "\n" stats.accepting
  let printerDetails := (jsSplit "\nprinter" stats.details).filter (fun l => !l.isEmpty)
  let isDefault := occurs name stats.defaultPrinter
  let socket_line := addressLines.find? (fun line => occurs (name ++ ": ".data) line)
  let socket :=
    match socket_line with
    | some sl =>
      if sl.isEmpty then []
      else (jsSplit " " sl).getD ((jsSplit " " sl).length - 1) []
    | none => []
  let acceptingRequests :=
    match acceptingLines.find? (fun line => occurs (name ++ " accepting".data) line) with
    | some l => if l.isEmpty then "false".data else "true".data
    | none => "false".data
  let dblock := printerDetails.find? (fun block => occurs (name ++ " ".data) block)
  let info : List (JSStr × JSStr) :=
    match dblock with
    | none => []
    | some d =>
      if d.isEmpty then []
      else
        let rows := ((jsSplit "\n" d).map jsTrim).filter (fun r => !r.isEmpty)
        lpstat_detail_ki.filterMap (fun kf =>
          match rows.find? (fun row => isPre kf.2 row) with
          | some row => if row.isEmpty then none else some (kf.1, jsTrim (row.drop kf.2.length))
          | none => none)
  { name := name, isDefault := isDefault,
    options := ("printer-is-accepting-jobs".data, acceptingRequests) ::
               ("device-uri".data, socket) :: info }

/-- The line loop of `extractPrinters`, threading the `currentPrinter`
variable.  A line whose first space-separated word is `printer` replaces
`currentPrinter` with a freshly assembled record named by the second word;
then — on EVERY line — the source pushes `currentPrinter` onto the result
whenever it is non-null.  A header line `"printer"` with no second word
leaves JS `words[1]` undefined; the string contexts it flows into coerce it
to `"undefined"`, which is how such a degenerate name is modelled. -/
def extractLoop (stats : LPSTAT_out) : List JSStr → Option PrinterDetails → List PrinterDetails
  | [], _ => []
  | line :: rest, cur =>
    let words := jsSplit " " line
    let cur' :=
      if words.getD 0 [] = "printer".data then
        some (mkPrinterRecord stats (words.getD 1 "undefined".data))
      else cur
    cur'.toList ++ extractLoop stats rest cur'

/-- `extractPrinters` (part_000): split the `printers` text into lines and
run the record-building loop. -/
def extractPrinters (stats : LPSTAT_out) : List PrinterDetails :=
  extractLoop stats (jsSplit "\n" stats.printers) none

/-! ## Printer directory (`class Printer`, part_000 lines 304-376) -/

/-- The fixed status-query set `lpstat_commands`, in the source's key order;
each entry is a key and the full command line it runs. -/
def lpstat_commands : List (String × List String) :=
  [("printers", ["lpstat", "-p"]),
   ("accepting", ["lpstat", "-a"]),
   ("addresses", ["lpstat", "-s"]),
   ("default", ["lpstat", "-d"]),
   ("details", ["lpstat", "-l", "-p"])]

/-- `lpstat_keys = Object.keys(lpstat_commands)`. -/
def lpstat_keys : List String := lpstat_commands.map (fun kc => kc.1)

/-- A process runner: maps a command line to its captured stdout, or to the
execution error `runCommandSync` throws / `runCommand` rejects with. -/
abbrev Runner := List String → Except JSError JSStr

/-- The query loop of the cold path of `getPrinters`: run each command in
sequence, collecting `stats[key] = response`; the first failing command
throws, aborting the loop (later queries are not run and no stats object is
produced). -/
def collectStats : List (String × List String) → Runner → Except JSError (List (String × JSStr))
  | [], _ => .ok []
  | (k, cmd) :: rest, run =>
    match run cmd with
    | .error e => .error e
    | .ok out =>
      match collectStats rest run with
      | .error e => .error e
      | .ok tail => .ok ((k, out) :: tail)

/-- Number of process-runner invocations the sequential query loop makes:
one per command until (and including) the first failure. -/
def collectCount : List (String × List String) → Runner → Nat
  | [], _ => 0
  | (_, cmd) :: rest, run =>
    1 + (match run cmd with
         | .error _ => 0
         | .ok _ => collectCount rest run)

/-- Rebuild the destructured `stats` object from the collected key/response
pairs (all five keys are always present when the loop succeeds). -/
def statsOfList (l : List (String × JSStr)) : LPSTAT_out :=
  { printers := (l.lookup "printers").getD [],
    accepting := (l.lookup "accepting").getD [],
    addresses := (l.lookup "addresses").getD [],
    defaultPrinter := (l.lookup "default").getD [],
    details := (l.lookup "details").getD [] }

/-- The directory's mutable state: cached records, loaded flag, and the
optional auto-refresh timer handle. -/
structure DirState where
  printers : List PrinterDetails
  printersLoaded : Bool
  refreshInterval : Option Nat
deriving DecidableEq

/-- `getPrinters` as observed at its synchronous return: invocation count,
state at return, and the returned value (or the exception the cold path
propagates).

* Cold path (`printersLoaded` false): run the five queries in sequence with
  `runCommandSync`; a failure throws out of `getPrinters` before
  `this.printers`/`this.printersLoaded` are assigned.  On success the cache
  is overwritten, the flag set, and the fresh list returned.
* Warm path: the five `runCommand` promises are created (five spawns
  initiated) and `Promise.all(...).then(...)` is left running in the
  background; the cached list is returned immediately and the state is
  unchanged at return time.  The background completion is modelled
  separately by `refreshSettle`. -/
def getPrinters_syncReturn (st : DirState) (run : Runner) :
    Nat × DirState × Except JSError (List PrinterDetails) :=
  if st.printersLoaded = false then
    match collectStats lpstat_commands run with
    | .error e => (collectCount lpstat_commands run, st, .error e)
    | .ok kvs =>
      let ps := extractPrinters (statsOfList kvs)
      (collectCount lpstat_commands run,
       { st with printers := ps, printersLoaded := true }, .ok ps)
  else
    (lpstat_commands.length, st, .ok st.printers)

/-- Eventual effect of the warm path's background refresh
(`Promise.all(...).then(...)`): if every query succeeded the cache and flag
are overwritten; if any query failed `Promise.all` rejects, the `.then`
handler never runs (there is no rejection handler), and the state is left
untouched. -/
def refreshSettle (st : DirState) (run : Runner) : DirState :=
  match collectStats lpstat_commands run with
  | .error _ => st
  | .ok kvs =>
    { st with printers := extractPrinters (statsOfList kvs), printersLoaded := true }

/-- The underlying execution error of the first failing status query, if
any. -/
def firstQueryError (run : Runner) : Option JSError :=
  lpstat_commands.findSome? (fun kc =>
    match run kc.2 with
    | .error e => some e
    | .ok _ => none)

/-- `getPrinter` (part_000 lines 347-351): when the directory is unloaded or
no auto-refresh timer is active it first calls `this.getPrinters()`, then
looks the name up with `this.printers.find(...)` in the cache as it stands
at that point.  The result is the invocation count paired with either the
propagated cold-load exception or the state and the (possibly absent)
record. -/
def getPrinter_model (st : DirState) (run : Runner) (printerName : JSStr) :
    Nat × Except JSError (DirState × Option PrinterDetails) :=
  if !st.printersLoaded || st.refreshInterval.isNone then
    match getPrinters_syncReturn st run with
    | (n, _, .error e) => (n, .error e)
    | (n, st', .ok _) =>
      (n, .ok (st', st'.printers.find? (fun p => p.name == printerName)))
  else
    (0, .ok (st, st.printers.find? (fun p => p.name == printerName)))

/-! ## Definitions following the claims' words

The next definitions are NOT translations of the source; each follows the
wording of a claim, to be compared with the source-derived functions
above. -/

/-- Device-address determination as C9 words it: the first line of the
addresses text containing `"<name>: "`, reduced to its last space-separated
token; the empty string when no such line exists. -/
def spec_deviceAddress (addresses name : JSStr) : JSStr :=
  match (jsSplit "\n" addresses).find? (fun line => occurs (name ++ ": ".data) line) with
  | some line => (jsSplit " " line).getLastD []
  | none => []

/-- Accepting-flag determination as C9 words it: true iff some line of the
accepting text contains `"<name> accepting"`. -/
def spec_acceptingFlag (accepting name : JSStr) : Bool :=
  ((jsSplit "\n" accepting).find? (fun line => occurs (name ++ " accepting".data) line)).isSome

/-- Job-handle extraction as C3 words it: split on whitespace discarding
empty tokens; with more than 3 tokens, the numeric suffix after the last
`-` of the third-from-last token (rendered back as text); otherwise the
whole trimmed response verbatim. -/
def spec_jobHandle (response : JSStr) : JSStr :=
  let toks := (jsSplit " " response).filter (fun t => !t.isEmpty)
  if toks.length > 3 then
    let tok := toks.getD (toks.length - 3) []
    (jsSplit "-" tok).getLastD []
  else jsTrim response

/-- JS object property access on the options map: the value stored at
`key`, if present (keys inserted by the source are pairwise distinct, so
first match is the stored value). -/
def jsGet (key : JSStr) : List (JSStr × JSStr) → Option JSStr
  | [] => none
  | (k, v) :: rest => if k == key then some v else jsGet key rest

/-- Heap-of-arrays model of the effect of one `lp_print` call on the
caller-supplied `args` array, which lives in heap cell `i`.  The two
validation throws (part_000 lines 145-146) precede every `args.push(...)`,
so a call that fails validation leaves the heap untouched.  On a valid call
the conditional flag pushes run on the caller's array in place, and the
file branch additionally pushes `'--'` and the file path (line 167); the
resulting cell contents are exactly the argument list of the spawned `lp`
process. -/
def argsHeapAfter (heap : List (List JSStr)) (i : Nat) (o : PrintOptions) :
    List (List JSStr) :=
  if o.printer.isEmpty then heap
  else if !truthyData o.dataField && !truthyStr o.file then heap
  else
    let args := lp_print_buildArgs (heap.getD i []) o
    let args := if truthyStr o.file then args ++ ["--".data, o.file.getD []] else args
    heap.set i args

/-- A concrete runner on which every status query succeeds with empty
output. -/
def okRun : Runner := fun _ => .ok []

/-- A concrete runner on which the `addresses` query (`lpstat -s`) fails. -/
def failRun : Runner := fun cmd =>
  if cmd = ["lpstat", "-s"] then .error ⟨"boom"⟩ else .ok []

example :
    extractPrinters ⟨"printer A is idle".data, "".data, "".data, "".data, "".data⟩ =
      [⟨"A".data, false,
        [("printer-is-accepting-jobs".data, "false".data), ("device-uri".data, [])]⟩] := by
  decide

example :
    extractPrinters ⟨"".data, "".data, "".data, "".data, "".data⟩ = [] := by decide

example :
    (extractPrinters ⟨"printer A is idle\n".data, "".data, "".data, "".data, "".data⟩).length
      = 2 := by decide

example :
    extractPrinters
      ⟨"printer A is idle".data,
       "A accepting requests since x".data,
       "device for A: socket://192.168.1.40:9100".data,
       "system default destination: A".data,
       "printer A is idle\n\tDescription: Label printer\n\tLocation: XT2\n".data⟩ =
      [⟨"A".data, true,
        [("printer-is-accepting-jobs".data, "true".data),
         ("device-uri".data, "socket://192.168.1.40:9100".data),
         ("printer-info".data, "Label printer".data),
         ("printer-location".data, "XT2".data)]⟩] := by decide

example :
    getPrinter_model ⟨[], false, none⟩ okRun "Z".data =
      (5, .ok (⟨[], true, none⟩, none)) := by decide

example :
    getPrinter_model ⟨[], false, none⟩ failRun "Z".data =
      (3, .error ⟨"boom"⟩) := by decide

example : spec_jobHandle "10-20".data = "10-20".data := by decide
example : spec_jobHandle "request id is ZPL-PRINTER-92 (0 file(s))".data = "92".data := by decide

example : extractJobId "request id is ZPL-PRINTER-92 (0 file(s))".data = some 92 := by decide
example : extractJobId "done".data = none := by decide
example : extractJobId "10-20".data = some 20 := by decide
example : lp_print_plan { printer := "P1".data, dataField := some (.str "hello".data), copies := some 2 } =
    .ok ⟨["-o".data, "raw".data, "-n".data, "2".data, "-d".data, "P1".data],
         .piped (.str "hello".data)⟩ := by decide
example : lp_print_plan { printer := [] } = .error ⟨"No printer provided"⟩ := by decide
example : lp_print_plan { printer := "P1".data } = .error ⟨"No data or file provided"⟩ := by decide

example : jsSplit "b" "abc".data = ["a".data, "c".data] := by decide
example : jsSplit "\n" "".data = [[]] := by decide
example : jsSplit "aa" "aaa".data = [[], "a".data] := by decide
example : occurs "b c".data "a b cd".data = true := by decide
example : occurs "bc ".data "a b cd".data = false := by decide
example : jsToNumber "92".data = some 92 := by decide
example : jsToNumber "ZPL".data = none := by decide
example : jsToNumber "".data = some 0 := by decide
example : jsToNumber "-3".data = some (-3) := by decide
example : natToStr 120 = "120".data := by decide
example : jsTrim "  a b\n".data = "a b".data := by decide

/-! ## Helper lemmas -/

theorem pushIf_append (c : Bool) (s : List JSStr) (x a : List JSStr) :
    pushIf c s (x ++ a) = x ++ pushIf c s a := by
  cases c <;> simp [pushIf, List.append_assoc]

theorem pushIfs_append (steps : List (Bool × List JSStr)) :
    ∀ x a : List JSStr, pushIfs steps (x ++ a) = x ++ pushIfs steps a := by
  induction steps with
  | nil => intro x a; simp [pushIfs]
  | cons s rest ih =>
    intro x a
    show pushIfs rest (pushIf s.1 s.2 (x ++ a)) = x ++ pushIfs rest (pushIf s.1 s.2 a)
    rw [pushIf_append]
    exact ih x (pushIf s.1 s.2 a)

/-- The constructed argument list always decomposes as the caller-supplied
array followed by the generated flags. -/
theorem lp_print_buildArgs_decomp (init : List JSStr) (o : PrintOptions) :
    lp_print_buildArgs init o = init ++ lp_print_buildArgs [] o := by
  have h := pushIfs_append (lp_print_steps o) init []
  simpa [lp_print_buildArgs] using h

theorem getD_set_self {α : Type} :
    ∀ (l : List α) (i : Nat) (v d : α), i < l.length → (l.set i v).getD i d = v := by
  intro l
  induction l with
  | nil => intro i v d h; simp at h
  | cons a t ih =>
    intro i v d h
    cases i with
    | zero => rfl
    | succ i' => simpa [List.set] using ih i' v d (by simpa using h)

theorem getD_set_ne {α : Type} :
    ∀ (l : List α) (i j : Nat) (v d : α), j ≠ i → (l.set i v).getD j d = l.getD j d := by
  intro l
  induction l with
  | nil => intro i j v d _; simp [List.set]
  | cons a t ih =>
    intro i j v d hne
    cases i with
    | zero =>
      cases j with
      | zero => exact absurd rfl hne
      | succ j' => simp [List.set]
    | succ i' =>
      cases j with
      | zero => simp [List.set]
      | succ j' => simpa [List.set] using ih i' j' v d (by omega)

theorem getD_length_sub_one {α : Type} (d : α) :
    ∀ l : List α, l.getD (l.length - 1) d = l.getLastD d := by
  intro l
  induction l with
  | nil => rfl
  | cons a t ih =>
    cases t with
    | nil => rfl
    | cons b u =>
      have h1 : (a :: b :: u).length - 1 = u.length + 1 := by simp
      have h2 : (b :: u).length - 1 = u.length := by simp
      rw [h1, List.getD_cons_succ]
      rw [h2] at ih
      rw [ih]
      simp [List.getLastD_cons]

theorem isPre_append_extend (q : JSStr) :
    ∀ l x : JSStr, isPre q l = true → isPre q (l ++ x) = true := by
  induction q with
  | nil => intro l x _; simp [isPre]
  | cons c cs ih =>
    intro l x h
    cases l with
    | nil => simp [isPre] at h
    | cons b bs =>
      simp only [List.cons_append, isPre, Bool.and_eq_true, beq_iff_eq] at h ⊢
      exact ⟨h.1, ih bs x h.2⟩

theorem isPre_of_isPre_append (a b : JSStr) :
    ∀ l : JSStr, isPre (a ++ b) l = true → isPre a l = true := by
  induction a with
  | nil => intro l _; simp [isPre]
  | cons c cs ih =>
    intro l h
    cases l with
    | nil => simp [isPre] at h
    | cons d ds =>
      simp only [List.cons_append, isPre, Bool.and_eq_true, beq_iff_eq] at h ⊢
      exact ⟨h.1, ih ds h.2⟩

theorem occurs_nil_pat : ∀ l : JSStr, occurs [] l = true := by
  intro l
  cases l <;> simp [occurs, isPre]

theorem occurs_of_isPre (q : JSStr) :
    ∀ l : JSStr, isPre q l = true → occurs q l = true := by
  intro l h
  cases l with
  | nil =>
    cases q with
    | nil => simp [occurs]
    | cons c cs => simp [isPre] at h
  | cons b bs => simp [occurs, h]

theorem occurs_append_right (q : JSStr) :
    ∀ x m : JSStr, occurs q m = true → occurs q (x ++ m) = true := by
  intro x
  induction x with
  | nil => intro m h; simpa using h
  | cons c cs ih =>
    intro m h
    simp only [List.cons_append, occurs, Bool.or_eq_true]
    exact Or.inr (ih m h)

theorem occurs_append_left (q : JSStr) :
    ∀ p post : JSStr, occurs q p = true → occurs q (p ++ post) = true := by
  intro p
  induction p with
  | nil =>
    intro post h
    simp only [occurs, List.isEmpty_iff] at h
    subst h
    simpa using occurs_nil_pat post
  | cons c cs ih =>
    intro post h
    simp only [occurs, Bool.or_eq_true] at h
    rcases h with h | h
    · exact occurs_of_isPre q _ (isPre_append_extend q (c :: cs) post h)
    · simp only [List.cons_append, occurs, Bool.or_eq_true]
      exact Or.inr (ih post h)

theorem occurs_infix (q pre p post : JSStr) (h : occurs q p = true) :
    occurs q (pre ++ p ++ post) = true := by
  rw [List.append_assoc]
  exact occurs_append_right q pre (p ++ post) (occurs_append_left q p post h)

theorem occurs_pat_append (a b : JSStr) :
    ∀ l : JSStr, occurs (a ++ b) l = true → occurs a l = true := by
  intro l
  induction l with
  | nil =>
    intro h
    simp only [occurs, List.isEmpty_iff, List.append_eq_nil] at h
    simp [occurs, h.1]
  | cons c cs ih =>
    intro h
    simp only [occurs, Bool.or_eq_true] at h ⊢
    rcases h with h | h
    · exact Or.inl (isPre_of_isPre_append a b _ h)
    · exact Or.inr (ih h)

theorem occurs_pat_ne_nil (q l : JSStr) (h : occurs q l = true) (hq : q ≠ []) : l ≠ [] := by
  intro hl
  subst hl
  simp only [occurs, List.isEmpty_iff] at h
  exact hq h

/-- Every piece of a split is a contiguous segment of the input, and the
first piece is a prefix of it. -/
theorem splitSeqF_pieces (sep : JSStr) :
    ∀ (f : Nat) (l : JSStr),
      (∀ p ∈ splitSeqF sep f l, ∃ pre post, l = pre ++ p ++ post) ∧
      (∀ p ps, splitSeqF sep f l = p :: ps → ∃ post, l = p ++ post) := by
  intro f
  induction f with
  | zero =>
    intro l
    constructor
    · intro p hp
      simp only [splitSeqF, List.mem_singleton] at hp
      exact ⟨[], [], by simp [hp]⟩
    · intro p ps h
      simp only [splitSeqF] at h
      cases h
      exact ⟨[], by simp⟩
  | succ f ih =>
    intro l
    cases l with
    | nil =>
      constructor
      · intro p hp
        simp only [splitSeqF, List.mem_singleton] at hp
        exact ⟨[], [], by simp [hp]⟩
      · intro p ps h
        simp only [splitSeqF] at h
        cases h
        exact ⟨[], by simp⟩
    | cons h t =>
      by_cases hc : sep ≠ [] ∧ isPre sep (h :: t) = true
      · have hrw : splitSeqF sep (f + 1) (h :: t) =
            [] :: splitSeqF sep f ((h :: t).drop sep.length) := by
          simp only [splitSeqF]
          rw [if_pos hc]
        constructor
        · intro p hp
          rw [hrw] at hp
          rcases List.mem_cons.mp hp with hp | hp
          · exact ⟨[], h :: t, by simp [hp]⟩
          · obtain ⟨pre, post, hsplit⟩ := (ih ((h :: t).drop sep.length)).1 p hp
            refine ⟨(h :: t).take sep.length ++ pre, post, ?_⟩
            conv_lhs => rw [← List.take_append_drop sep.length (h :: t)]
            rw [hsplit]
            simp [List.append_assoc]
        · intro p ps hps
          rw [hrw] at hps
          injection hps with h1 _
          exact ⟨h :: t, by simp [← h1]⟩
      · have hrw : splitSeqF sep (f + 1) (h :: t) =
            (match splitSeqF sep f t with
             | [] => [[h]]
             | p :: ps => (h :: p) :: ps) := by
          simp only [splitSeqF]
          rw [if_neg hc]
        cases hrec : splitSeqF sep f t with
        | nil =>
          rw [hrec] at hrw
          constructor
          · intro p hp
            rw [hrw] at hp
            simp only [List.mem_singleton] at hp
            exact ⟨[], t, by simp [hp]⟩
          · intro p ps hps
            rw [hrw] at hps
            injection hps with h1 _
            exact ⟨t, by simp [← h1]⟩
        | cons p0 ps0 =>
          rw [hrec] at hrw
          have hhead : ∃ post, t = p0 ++ post := (ih t).2 p0 ps0 hrec
          constructor
          · intro p hp
            rw [hrw] at hp
            rcases List.mem_cons.mp hp with hp | hp
            · obtain ⟨post, hpost⟩ := hhead
              exact ⟨[], post, by simp [hp, hpost]⟩
            · have hp' : p ∈ splitSeqF sep f t := by
                rw [hrec]; exact List.mem_cons_of_mem _ hp
              obtain ⟨pre, post, hsplit⟩ := (ih t).1 p hp'
              exact ⟨h :: pre, post, by simp [hsplit]⟩
          · intro p ps hps
            rw [hrw] at hps
            injection hps with h1 _
            obtain ⟨post, hpost⟩ := hhead
            exact ⟨post, by simp [← h1, hpost]⟩

/-- A substring of a piece of a JS split is a substring of the whole
string. -/
theorem occurs_of_mem_jsSplitSeq (sep l p q : JSStr)
    (hp : p ∈ jsSplitSeq sep l) (hq : occurs q p = true) : occurs q l = true := by
  obtain ⟨pre, post, hsplit⟩ := (splitSeqF_pieces sep (l.length + 1) l).1 p hp
  rw [hsplit]
  exact occurs_infix q pre p post hq

/-- Every record the extraction loop emits is the record assembled for some
name. -/
theorem extractLoop_mem (stats : LPSTAT_out) :
    ∀ (lines : List JSStr) (cur : Option PrinterDetails) (rec : PrinterDetails),
      (∀ r, cur = some r → ∃ n, r = mkPrinterRecord stats n) →
      rec ∈ extractLoop stats lines cur → ∃ n, rec = mkPrinterRecord stats n := by
  intro lines
  induction lines with
  | nil => intro cur rec _ hmem; simp [extractLoop] at hmem
  | cons line rest ih =>
    intro cur rec hcur hmem
    simp only [extractLoop] at hmem
    have hcur' : ∀ r,
        (if (jsSplit " " line).getD 0 [] = "printer".data then
          some (mkPrinterRecord stats ((jsSplit " " line).getD 1 "undefined".data))
        else cur) = some r → ∃ n, r = mkPrinterRecord stats n := by
      intro r hr
      by_cases hcond : (jsSplit " " line).getD 0 [] = "printer".data
      · rw [if_pos hcond] at hr
        exact ⟨_, (Option.some_inj.mp hr).symm⟩
      · rw [if_neg hcond] at hr
        exact hcur r hr
    rcases List.mem_append.mp hmem with hm | hm
    · cases hcc : (if (jsSplit " " line).getD 0 [] = "printer".data then
          some (mkPrinterRecord stats ((jsSplit " " line).getD 1 "undefined".data))
        else cur) with
      | none => rw [hcc] at hm; simp [Option.toList] at hm
      | some p =>
        rw [hcc] at hm
        simp only [Option.toList, List.mem_singleton] at hm
        subst hm
        exact hcur' _ hcc
    · exact ih _ rec hcur' hm

/-- Every record `extractPrinters` emits equals the record assembled for its
own name. -/
theorem extractPrinters_char (stats : LPSTAT_out) (rec : PrinterDetails)
    (h : rec ∈ extractPrinters stats) : rec = mkPrinterRecord stats rec.name := by
  obtain ⟨n, hn⟩ := extractLoop_mem stats (jsSplit "\n" stats.printers) none rec
    (by intro r hr; cases hr) h
  have hname : rec.name = n := by rw [hn]; rfl
  rw [hname]
  exact hn

/-- If some status query fails, the sequential query loop throws the error
of the first failing query. -/
theorem collectStats_of_error :
    ∀ (cmds : List (String × List String)) (run : Runner) (k : String)
      (c : List String) (e : JSError),
      (k, c) ∈ cmds → run c = .error e →
      collectStats cmds run =
        .error ((cmds.findSome? (fun kc =>
          match run kc.2 with
          | .error e' => some e'
          | .ok _ => none)).getD ⟨""⟩) := by
  intro cmds
  induction cmds with
  | nil => intro run k c e hmem _; simp at hmem
  | cons hd rest ih =>
    intro run k c e hmem herr
    obtain ⟨k0, c0⟩ := hd
    cases hrun : run c0 with
    | error e0 =>
      simp [collectStats, hrun, List.findSome?_cons]
    | ok out =>
      rcases List.mem_cons.mp hmem with heq | hmem'
      · exfalso
        have hc : c = c0 := (Prod.mk.injEq _ _ _ _ ▸ heq).2
        rw [hc, hrun] at herr
        cases herr
      · have hrest := ih run k c e hmem' herr
        simp [collectStats, hrun, List.findSome?_cons, hrest]

theorem collectCount_pos (cmds : List (String × List String)) (run : Runner)
    (h : cmds ≠ []) : 1 ≤ collectCount cmds run := by
  cases cmds with
  | nil => exact absurd rfl h
  | cons hd rest => simp [collectCount]

theorem mkPrinterRecord_name (stats : LPSTAT_out) (n : JSStr) :
    (mkPrinterRecord stats n).name = n := rfl

theorem getD_reverse_two {α : Type} (l : List α) (d : α) (h : 3 < l.length) :
    l.reverse.getD 2 d = l.getD (l.length - 3) d := by
  rw [List.getD_eq_getElem?_getD, List.getD_eq_getElem?_getD]
  rw [List.getElem?_reverse (by omega)]
  congr 2

theorem jsGet_deviceUri_mk (stats : LPSTAT_out) (n : JSStr) :
    jsGet "device-uri".data (mkPrinterRecord stats n).options =
      some (match (jsSplit "\n" stats.addresses).find?
              (fun line => occurs (n ++ ": ".data) line) with
            | some sl =>
              if sl.isEmpty then []
              else (jsSplit " " sl).getD ((jsSplit " " sl).length - 1) []
            | none => []) := by
  have h1 : (("printer-is-accepting-jobs".data : JSStr) == "device-uri".data) = false := by
    decide
  have h2 : (("device-uri".data : JSStr) == "device-uri".data) = true := by decide
  simp only [mkPrinterRecord, jsGet, h1, h2, if_true, if_false, Bool.false_eq_true,
    Bool.true_eq_false, if_neg, if_pos]

theorem jsGet_accepting_mk (stats : LPSTAT_out) (n : JSStr) :
    jsGet "printer-is-accepting-jobs".data (mkPrinterRecord stats n).options =
      some (match (jsSplit "\n" stats.accepting).find?
              (fun line => occurs (n ++ " accepting".data) line) with
            | some l => if l.isEmpty then "false".data else "true".data
            | none => "false".data) := by
  have h1 : (("printer-is-accepting-jobs".data : JSStr) ==
      "printer-is-accepting-jobs".data) = true := by decide
  simp only [mkPrinterRecord, jsGet, h1, if_true]

/-- When the name matches nowhere, the assembled record's options map is
exactly the two default entries. -/
theorem mkPrinterRecord_options_absent (stats : LPSTAT_out) (n : JSStr)
    (hfa : (jsSplit "\n" stats.addresses).find?
        (fun line => occurs (n ++ ": ".data) line) = none)
    (hfb : (jsSplit "\n" stats.accepting).find?
        (fun line => occurs (n ++ " accepting".data) line) = none)
    (hfc : ((jsSplit "\nprinter" stats.details).filter (fun l => !l.isEmpty)).find?
        (fun block => occurs (n ++ " ".data) block) = none) :
    (mkPrinterRecord stats n).options =
      [("printer-is-accepting-jobs".data, "false".data),
       ("device-uri".data, ([] : JSStr))] := by
  simp only [mkPrinterRecord]
  rw [hfa, hfb, hfc]

/-! ## Claim theorems -/

/-- Claim C1: the claim states that a `printers` text with N distinct
`printer <name>` header lines yields exactly N records.  The code instead
pushes `currentPrinter` once per line from the first header on: for the
text `"printer A is idle\n"` — ONE header line followed by the empty line
produced by the trailing newline — it returns TWO records (the same record
twice), where the claim requires exactly one. -/
theorem C1_duplicate_records_eval :
    extractPrinters ⟨"printer A is idle\n".data, [], [], [], []⟩ =
      [⟨"A".data, false,
        [("printer-is-accepting-jobs".data, "false".data), ("device-uri".data, [])]⟩,
       ⟨"A".data, false,
        [("printer-is-accepting-jobs".data, "false".data), ("device-uri".data, [])]⟩] ∧
    (extractPrinters ⟨"printer A is idle\n".data, [], [], [], []⟩).length = 2 := by
  decide

/-- Claim C2: the claim states that when the submission command fails, the
promise returned by `lp_print` rejects with the wrapped execution error.
The code attaches only a fulfillment handler (`.then(callback)`, no
`.catch`) to the inner command promise, so for a validated request whose
execution fails the returned promise never settles: it is `pending`, not
`rejected`.  The second conjunct shows the request indeed passes validation
and plans a piped `lp` spawn. -/
theorem C2_exec_failure_leaves_promise_pending :
    lp_print_outcome { printer := "P1".data, dataField := some (.str "x".data) }
        (.error ⟨"Failed to run command"⟩) = PromiseState.pending ∧
    lp_print_plan { printer := "P1".data, dataField := some (.str "x".data) } =
      .ok ⟨["-o".data, "raw".data, "-d".data, "P1".data], .piped (.str "x".data)⟩ := by
  decide

/-- Claim C3 counterexample: for the confirmation text `"10-20"` (at most 3
tokens), the claim says the handle is the whole trimmed response verbatim,
i.e. `"10-20"`; the code instead still splits on `-` and numerically coerces
the last segment, resolving with the number `20` — which does not render
back to `"10-20"`. -/
theorem C3_counterexample_no_verbatim_branch :
    extractJobId "10-20".data = some 20 ∧
    spec_jobHandle "10-20".data = "10-20".data ∧
    (extractJobId "10-20".data).map intToStr ≠ some ("10-20".data) := by
  decide

/-- Claim C3 amended: the handle is computed by splitting the confirmation
text on the space character and discarding empty tokens; if more than 3
tokens remain the JS numeric coercion of the substring after the last `-`
of the third-from-last token is resolved, and OTHERWISE the same coercion
of the substring after the last `-` of the whole untrimmed response (NaN
when non-numeric) — not the verbatim response.  For
`"request id is ZPL-PRINTER-92 (0 file(s))"` the handle is `92`. -/
theorem C3_job_handle_extraction :
    (∀ response : JSStr,
      extractJobId response =
        jsToNumber ((jsSplit "-"
          (if 3 < ((jsSplit " " response).filter (fun t => !t.isEmpty)).length then
            ((jsSplit " " response).filter (fun t => !t.isEmpty)).reverse.getD 2 []
          else response)).getLastD [])) ∧
    extractJobId "request id is ZPL-PRINTER-92 (0 file(s))".data = some 92 := by
  refine ⟨?_, by decide⟩
  intro response
  simp only [extractJobId]
  by_cases hlen : 3 < ((jsSplit " " response).filter (fun t => !t.isEmpty)).length
  · rw [if_pos hlen, if_pos hlen, getD_reverse_two _ _ hlen, getD_length_sub_one]
  · rw [if_neg hlen, if_neg hlen, getD_length_sub_one]

/-- Claim C3 witness: the amended characterization evaluated at a concrete
response. -/
theorem C3_job_handle_extraction_witness :
    extractJobId "done".data =
      jsToNumber ((jsSplit "-"
        (if 3 < ((jsSplit " " "done".data).filter (fun t => !t.isEmpty)).length then
          ((jsSplit " " "done".data).filter (fun t => !t.isEmpty)).reverse.getD 2 []
        else "done".data)).getLastD []) :=
  C3_job_handle_extraction.1 "done".data

/-- Claim C4 counterexample: the claim says a request supplying BOTH `data`
and `file` fails validation with 'no data or file'.  The code only rejects
when both are missing: with both present the request is accepted, the file
branch wins, and an `lp` process is spawned. -/
theorem C4_counterexample_both_present :
    lp_print_plan
        { printer := "P1".data, dataField := some (.str "x".data), file := some "f".data } =
      .ok ⟨["-d".data, "P1".data, "--".data, "f".data], .direct "f".data⟩ := by
  decide

/-- Claim C4 amended: validation happens synchronously before any spawn —
an empty/absent printer fails with 'no printer'; `data` and `file` BOTH
absent (or JS-falsy) fails with 'no data or file'; and whenever validation
fails, zero external processes are spawned.  (Supplying both `data` and
`file` is accepted, the file branch taking precedence.) -/
theorem C4_validation_before_spawn (o : PrintOptions) (e : JSError) :
    (o.printer = [] → lp_print_plan o = .error ⟨"No printer provided"⟩) ∧
    (o.printer ≠ [] → truthyData o.dataField = false → truthyStr o.file = false →
      lp_print_plan o = .error ⟨"No data or file provided"⟩) ∧
    (lp_print_plan o = .error e → spawnsOf (lp_print_plan o) = []) := by
  refine ⟨?_, ?_, ?_⟩
  · intro h
    simp [lp_print_plan, h]
  · intro h1 h2 h3
    have hne : o.printer.isEmpty = false := by
      cases hp : o.printer with
      | nil => exact absurd hp h1
      | cons a t => rfl
    simp [lp_print_plan, hne, h2, h3]
  · intro h
    rw [h]
    rfl

/-- Claim C4 witness: the amended validation facts evaluated at concrete
requests, with every hypothesis discharged. -/
theorem C4_validation_before_spawn_witness :
    lp_print_plan { printer := ([] : JSStr) } = .error ⟨"No printer provided"⟩ ∧
    lp_print_plan { printer := "P1".data } = .error ⟨"No data or file provided"⟩ ∧
    spawnsOf (lp_print_plan { printer := ([] : JSStr) }) = [] := by
  refine ⟨?_, ?_, ?_⟩
  · exact (C4_validation_before_spawn { printer := [] } ⟨"No printer provided"⟩).1 rfl
  · exact (C4_validation_before_spawn { printer := "P1".data }
      ⟨"No data or file provided"⟩).2.1 (by decide) rfl rfl
  · exact (C4_validation_before_spawn { printer := [] } ⟨"No printer provided"⟩).2.2
      ((C4_validation_before_spawn { printer := [] } ⟨"No printer provided"⟩).1 rfl)

/-- Claim C5: for the request `{printer: "P1", data: "hello", copies: 2}`
the constructed argument sequence is exactly `-o raw -n 2 -d P1` — hence it
contains `-o raw`, `-n 2`, `-d P1` in that relative order and no
host/user/title/print-quality/orientation-requested/encryption flag — and
the submission is the piped one. -/
theorem C5_basic_request_args :
    lp_print_plan
        { printer := "P1".data, dataField := some (.str "hello".data), copies := some 2 } =
      .ok ⟨["-o".data, "raw".data, "-n".data, "2".data, "-d".data, "P1".data],
           .piped (.str "hello".data)⟩ := by
  decide

/-- Claim C10: `lp_print` mutates the caller-supplied extra-arguments array
in place.  In the heap-of-arrays model: on a request that passes validation
the caller's cell `i` afterwards holds its old contents followed by every
generated flag — the conditional flag pushes, plus `--` and the file path
in the file branch — so all caller-supplied extras precede the
format/copies/destination flags in the final argument list; on a request
that fails validation the throw precedes every push and the heap is left
untouched; and in every case no other cell changes and no array is added
or removed. -/
theorem C10_caller_args_mutated_in_place (heap : List (List JSStr)) (i j : Nat)
    (o : PrintOptions) (hi : i < heap.length) (hj : j ≠ i) :
    (o.printer.isEmpty = false → (truthyData o.dataField || truthyStr o.file) = true →
      (argsHeapAfter heap i o).getD i [] =
        heap.getD i [] ++ (lp_print_buildArgs [] o ++
          (if truthyStr o.file then ["--".data, o.file.getD []] else []))) ∧
    ((o.printer.isEmpty = true ∨ (truthyData o.dataField || truthyStr o.file) = false) →
      argsHeapAfter heap i o = heap) ∧
    (argsHeapAfter heap i o).getD j [] = heap.getD j [] ∧
    (argsHeapAfter heap i o).length = heap.length := by
  by_cases hp : o.printer.isEmpty = true
  · have hheap : argsHeapAfter heap i o = heap := by
      unfold argsHeapAfter
      rw [if_pos hp]
    refine ⟨?_, fun _ => hheap, by rw [hheap], by rw [hheap]⟩
    intro hp1 _
    rw [hp1] at hp
    exact absurd hp (by decide)
  · by_cases hv : (truthyData o.dataField || truthyStr o.file) = true
    · have hcond2 : (!truthyData o.dataField && !truthyStr o.file) = false := by
        cases hda : truthyData o.dataField <;> cases hfi : truthyStr o.file <;>
          simp_all
      have hheap : argsHeapAfter heap i o =
          heap.set i (lp_print_buildArgs (heap.getD i []) o ++
            (if truthyStr o.file then ["--".data, o.file.getD []] else [])) := by
        unfold argsHeapAfter
        rw [if_neg hp, if_neg (by simp [hcond2])]
        by_cases hfi : truthyStr o.file = true
        · simp [hfi]
        · rw [Bool.not_eq_true] at hfi
          simp [hfi]
      refine ⟨?_, ?_, ?_, ?_⟩
      · intro _ _
        rw [hheap, getD_set_self _ _ _ _ hi, lp_print_buildArgs_decomp,
          List.append_assoc]
      · intro hcase
        rcases hcase with hcase | hcase
        · exact absurd hcase hp
        · rw [hv] at hcase
          exact absurd hcase (by decide)
      · rw [hheap]
        exact getD_set_ne _ _ _ _ _ hj
      · rw [hheap]
        simp
    · have hv' : (truthyData o.dataField || truthyStr o.file) = false := by
        cases h : (truthyData o.dataField || truthyStr o.file)
        · rfl
        · exact absurd h hv
      have hcond2 : (!truthyData o.dataField && !truthyStr o.file) = true := by
        cases hda : truthyData o.dataField <;> cases hfi : truthyStr o.file <;>
          simp_all
      have hheap : argsHeapAfter heap i o = heap := by
        unfold argsHeapAfter
        rw [if_neg hp, if_pos hcond2]
      refine ⟨?_, fun _ => hheap, by rw [hheap], by rw [hheap]⟩
      intro _ hv2
      rw [hv'] at hv2
      exact absurd hv2 (by decide)

/-- Claim C10 witness: at a concrete two-cell heap, a valid file-based
request rewrites the caller's cell to its old contents followed by the
generated flags and the `--`/path pushes, while an empty-printer request
leaves the heap untouched; the other cell and the heap length are
unchanged.  All hypotheses are discharged at these concrete inputs. -/
theorem C10_caller_args_mutated_in_place_witness :
    (0 : Nat) < [["-x".data], ["keep".data]].length ∧ (1 : Nat) ≠ 0 ∧
    (argsHeapAfter [["-x".data], ["keep".data]] 0
        { printer := "P1".data, file := some "f".data }).getD 0 [] =
      [["-x".data], ["keep".data]].getD 0 [] ++
        (lp_print_buildArgs [] { printer := "P1".data, file := some "f".data } ++
          ["--".data, "f".data]) ∧
    argsHeapAfter [["-x".data], ["keep".data]] 0 { printer := ([] : JSStr) } =
      [["-x".data], ["keep".data]] ∧
    (argsHeapAfter [["-x".data], ["keep".data]] 0
        { printer := "P1".data, file := some "f".data }).getD 1 [] =
      [["-x".data], ["keep".data]].getD 1 [] ∧
    (argsHeapAfter [["-x".data], ["keep".data]] 0
        { printer := "P1".data, file := some "f".data }).length =
      [["-x".data], ["keep".data]].length := by
  refine ⟨by decide, by decide, ?_, ?_, ?_, ?_⟩
  · exact (C10_caller_args_mutated_in_place [["-x".data], ["keep".data]] 0 1
      { printer := "P1".data, file := some "f".data } (by decide) (by decide)).1
      (by decide) (by decide)
  · exact (C10_caller_args_mutated_in_place [["-x".data], ["keep".data]] 0 1
      { printer := ([] : JSStr) } (by decide) (by decide)).2.1 (Or.inl (by decide))
  · exact (C10_caller_args_mutated_in_place [["-x".data], ["keep".data]] 0 1
      { printer := "P1".data, file := some "f".data } (by decide) (by decide)).2.2.1
  · exact (C10_caller_args_mutated_in_place [["-x".data], ["keep".data]] 0 1
      { printer := "P1".data, file := some "f".data } (by decide) (by decide)).2.2.2

/-- Claim C6: if any one of the five status queries fails while the
snapshot is being built, the whole build fails with the underlying
execution error of the first failing query — no partial snapshot reaches
the extractor — the directory state at return is unchanged, and a failing
background refresh likewise leaves the cached list and loaded flag
unchanged. -/
theorem C6_snapshot_failure_atomic (st : DirState) (run : Runner) (k : String)
    (c : List String) (e : JSError) (hmem : (k, c) ∈ lpstat_commands)
    (herr : run c = .error e) (hcold : st.printersLoaded = false) :
    (getPrinters_syncReturn st run).2.2 = .error ((firstQueryError run).getD ⟨""⟩) ∧
    (getPrinters_syncReturn st run).2.1 = st ∧
    refreshSettle st run = st := by
  have hcoll := collectStats_of_error lpstat_commands run k c e hmem herr
  have hbr : getPrinters_syncReturn st run =
      (collectCount lpstat_commands run, st,
        .error ((firstQueryError run).getD ⟨""⟩)) := by
    unfold getPrinters_syncReturn
    rw [if_pos hcold, hcoll]
    rfl
  have hrs : refreshSettle st run = st := by
    unfold refreshSettle
    rw [hcoll]
  exact ⟨by rw [hbr], by rw [hbr], hrs⟩

/-- Claim C6 witness: a concrete unloaded directory and a runner on which
the `addresses` query fails; the build fails with that execution error and
the state is untouched. -/
theorem C6_snapshot_failure_atomic_witness :
    ("addresses", ["lpstat", "-s"]) ∈ lpstat_commands ∧
    failRun ["lpstat", "-s"] = .error ⟨"boom"⟩ ∧
    ((getPrinters_syncReturn ⟨[], false, none⟩ failRun).2.2 =
        .error ((firstQueryError failRun).getD ⟨""⟩) ∧
     (getPrinters_syncReturn ⟨[], false, none⟩ failRun).2.1 = ⟨[], false, none⟩ ∧
     refreshSettle ⟨[], false, none⟩ failRun = ⟨[], false, none⟩) :=
  ⟨by decide, by decide,
   C6_snapshot_failure_atomic ⟨[], false, none⟩ failRun "addresses" ["lpstat", "-s"]
     ⟨"boom"⟩ (by decide) (by decide) rfl⟩

/-- Claim C8: `getPrinter` on a directory that is unloaded, or whose
auto-refresh timer is not active, first performs a fresh load — at least
one process-runner invocation — before answering; it then looks the name up
in the cache as it stands at the load's synchronous return, and `find?`
yields the missing-value result `none` (no exception) when the name is
absent. -/
theorem C8_getPrinter_fresh_load (st : DirState) (run : Runner) (printerName : JSStr)
    (ps : List PrinterDetails)
    (htrig : st.printersLoaded = false ∨ st.refreshInterval = none)
    (hok : (getPrinters_syncReturn st run).2.2 = .ok ps) :
    1 ≤ (getPrinter_model st run printerName).1 ∧
    (getPrinter_model st run printerName).2 =
      .ok ((getPrinters_syncReturn st run).2.1,
        (getPrinters_syncReturn st run).2.1.printers.find?
          (fun p => p.name == printerName)) := by
  have hcond : (!st.printersLoaded || st.refreshInterval.isNone) = true := by
    rcases htrig with h | h
    · rw [h]; rfl
    · rw [h]; simp
  have hcount : 1 ≤ (getPrinters_syncReturn st run).1 := by
    by_cases hl : st.printersLoaded = false
    · have h1 : (getPrinters_syncReturn st run).1 = collectCount lpstat_commands run := by
        unfold getPrinters_syncReturn
        rw [if_pos hl]
        cases hcs : collectStats lpstat_commands run <;> rfl
      rw [h1]
      exact collectCount_pos lpstat_commands run (by decide)
    · have h1 : (getPrinters_syncReturn st run).1 = lpstat_commands.length := by
        unfold getPrinters_syncReturn
        rw [if_neg hl]
      rw [h1]
      decide
  rcases hsync : getPrinters_syncReturn st run with ⟨n, st', res⟩
  rw [hsync] at hok
  simp only at hok
  subst hok
  have hmodel : getPrinter_model st run printerName =
      (n, .ok (st', st'.printers.find? (fun p => p.name == printerName))) := by
    unfold getPrinter_model
    rw [if_pos hcond, hsync]
  constructor
  · rw [hmodel]
    rw [hsync] at hcount
    exact hcount
  · rw [hmodel]

/-- Claim C8 witness: an unloaded directory with no timer and an all-ok
runner; the lookup of an absent name performs five runner invocations and
returns `none`. -/
theorem C8_getPrinter_fresh_load_witness :
    ((⟨[], false, none⟩ : DirState).printersLoaded = false ∨
      (⟨[], false, none⟩ : DirState).refreshInterval = none) ∧
    (getPrinters_syncReturn ⟨[], false, none⟩ okRun).2.2 = .ok [] ∧
    (1 ≤ (getPrinter_model ⟨[], false, none⟩ okRun "Z".data).1 ∧
     (getPrinter_model ⟨[], false, none⟩ okRun "Z".data).2 =
       .ok ((getPrinters_syncReturn ⟨[], false, none⟩ okRun).2.1,
         (getPrinters_syncReturn ⟨[], false, none⟩ okRun).2.1.printers.find?
           (fun p => p.name == "Z".data))) :=
  ⟨Or.inl rfl, by decide,
   C8_getPrinter_fresh_load ⟨[], false, none⟩ okRun "Z".data [] (Or.inl rfl) (by decide)⟩

/-- Claim C7: every record emitted by the extractor has an options map
whose `printer-is-accepting-jobs` entry is the string `true` or `false` and
which contains a `device-uri` entry; and when the record's name occurs
nowhere in the addresses, accepting, and details texts, the device-uri is
the empty string, the accepting flag is `false`, and neither descriptive
key (`printer-info`, `printer-location`) is present. -/
theorem C7_options_invariant (stats : LPSTAT_out) (rec : PrinterDetails)
    (hmem : rec ∈ extractPrinters stats) :
    (jsGet "printer-is-accepting-jobs".data rec.options = some "true".data ∨
     jsGet "printer-is-accepting-jobs".data rec.options = some "false".data) ∧
    (jsGet "device-uri".data rec.options).isSome = true ∧
    (occurs rec.name stats.addresses = false →
     occurs rec.name stats.accepting = false →
     occurs rec.name stats.details = false →
      jsGet "device-uri".data rec.options = some [] ∧
      jsGet "printer-is-accepting-jobs".data rec.options = some "false".data ∧
      jsGet "printer-info".data rec.options = none ∧
      jsGet "printer-location".data rec.options = none) := by
  obtain ⟨n, hn⟩ := extractLoop_mem stats (jsSplit "\n" stats.printers) none rec
    (by intro r hr; cases hr) hmem
  subst hn
  simp only [mkPrinterRecord_name]
  refine ⟨?_, ?_, ?_⟩
  · rw [jsGet_accepting_mk]
    cases hfind : (jsSplit "\n" stats.accepting).find?
        (fun line => occurs (n ++ " accepting".data) line) with
    | none => exact Or.inr rfl
    | some l =>
      dsimp only
      cases hl : l.isEmpty with
      | true => exact Or.inr rfl
      | false => exact Or.inl rfl
  · rw [jsGet_deviceUri_mk]
    rfl
  · intro ha hb hc
    have hfa : (jsSplit "\n" stats.addresses).find?
        (fun line => occurs (n ++ ": ".data) line) = none := by
      rw [List.find?_eq_none]
      intro line hline hocc
      have h1 : occurs n line = true := occurs_pat_append n ": ".data line hocc
      have h2 : occurs n stats.addresses = true :=
        occurs_of_mem_jsSplitSeq "\n".data stats.addresses line n hline h1
      rw [ha] at h2
      exact absurd h2 (by decide)
    have hfb : (jsSplit "\n" stats.accepting).find?
        (fun line => occurs (n ++ " accepting".data) line) = none := by
      rw [List.find?_eq_none]
      intro line hline hocc
      have h1 : occurs n line = true := occurs_pat_append n " accepting".data line hocc
      have h2 : occurs n stats.accepting = true :=
        occurs_of_mem_jsSplitSeq "\n".data stats.accepting line n hline h1
      rw [hb] at h2
      exact absurd h2 (by decide)
    have hfc : ((jsSplit "\nprinter" stats.details).filter (fun l => !l.isEmpty)).find?
        (fun block => occurs (n ++ " ".data) block) = none := by
      rw [List.find?_eq_none]
      intro block hblock hocc
      have hmem' : block ∈ jsSplit "\nprinter" stats.details :=
        List.mem_of_mem_filter hblock
      have h1 : occurs n block = true := occurs_pat_append n " ".data block hocc
      have h2 : occurs n stats.details = true :=
        occurs_of_mem_jsSplitSeq "\nprinter".data stats.details block n hmem' h1
      rw [hc] at h2
      exact absurd h2 (by decide)
    rw [mkPrinterRecord_options_absent stats n hfa hfb hfc]
    refine ⟨?_, ?_, ?_, ?_⟩ <;> decide

/-- Claim C7 witness: for a printers text with one header and empty
other texts, the emitted record is in the output, its name occurs in none
of the other texts, and the invariant conclusions all hold. -/
theorem C7_options_invariant_witness :
    ((⟨"A".data, false,
        [("printer-is-accepting-jobs".data, "false".data),
         ("device-uri".data, ([] : JSStr))]⟩ : PrinterDetails) ∈
      extractPrinters ⟨"printer A".data, [], [], [], []⟩) ∧
    ((jsGet "printer-is-accepting-jobs".data
        [("printer-is-accepting-jobs".data, "false".data),
         ("device-uri".data, ([] : JSStr))] = some "true".data ∨
      jsGet "printer-is-accepting-jobs".data
        [("printer-is-accepting-jobs".data, "false".data),
         ("device-uri".data, ([] : JSStr))] = some "false".data) ∧
     (jsGet "device-uri".data
        [("printer-is-accepting-jobs".data, "false".data),
         ("device-uri".data, ([] : JSStr))]).isSome = true ∧
     (jsGet "device-uri".data
        [("printer-is-accepting-jobs".data, "false".data),
         ("device-uri".data, ([] : JSStr))] = some [] ∧
      jsGet "printer-is-accepting-jobs".data
        [("printer-is-accepting-jobs".data, "false".data),
         ("device-uri".data, ([] : JSStr))] = some "false".data ∧
      jsGet "printer-info".data
        [("printer-is-accepting-jobs".data, "false".data),
         ("device-uri".data, ([] : JSStr))] = none ∧
      jsGet "printer-location".data
        [("printer-is-accepting-jobs".data, "false".data),
         ("device-uri".data, ([] : JSStr))] = none)) := by
  have h := C7_options_invariant ⟨"printer A".data, [], [], [], []⟩
    ⟨"A".data, false,
      [("printer-is-accepting-jobs".data, "false".data),
       ("device-uri".data, ([] : JSStr))]⟩ (by decide)
  exact ⟨by decide, h.1, h.2.1, h.2.2 (by decide) (by decide) (by decide)⟩

/-- Claim C9: for every record the extractor emits, the stored device
address is exactly the claim's determination — last space-separated piece
of the first addresses line containing `"<name>: "`, else the empty
string — and the stored accepting flag is `true` iff some accepting line
contains `"<name> accepting"`. -/
theorem C9_address_and_accepting_determination (stats : LPSTAT_out)
    (rec : PrinterDetails) (hmem : rec ∈ extractPrinters stats) :
    jsGet "device-uri".data rec.options =
      some (spec_deviceAddress stats.addresses rec.name) ∧
    jsGet "printer-is-accepting-jobs".data rec.options =
      some (if spec_acceptingFlag stats.accepting rec.name then "true".data
            else "false".data) := by
  obtain ⟨n, hn⟩ := extractLoop_mem stats (jsSplit "\n" stats.printers) none rec
    (by intro r hr; cases hr) hmem
  subst hn
  simp only [mkPrinterRecord_name]
  constructor
  · rw [jsGet_deviceUri_mk]
    unfold spec_deviceAddress
    cases hfind : (jsSplit "\n" stats.addresses).find?
        (fun line => occurs (n ++ ": ".data) line) with
    | none => rfl
    | some sl =>
      have hpred : occurs (n ++ ": ".data) sl = true := List.find?_some hfind
      have hne : sl ≠ [] := occurs_pat_ne_nil _ _ hpred (by simp)
      have hempty : sl.isEmpty = false := by
        cases sl with
        | nil => exact absurd rfl hne
        | cons a t => rfl
      dsimp only
      rw [hempty]
      simp only [Bool.false_eq_true, if_false]
      rw [getD_length_sub_one]
  · rw [jsGet_accepting_mk]
    unfold spec_acceptingFlag
    cases hfind : (jsSplit "\n" stats.accepting).find?
        (fun line => occurs (n ++ " accepting".data) line) with
    | none => rfl
    | some l =>
      have hpred : occurs (n ++ " accepting".data) l = true := List.find?_some hfind
      have hne : l ≠ [] := occurs_pat_ne_nil _ _ hpred (by simp)
      have hempty : l.isEmpty = false := by
        cases l with
        | nil => exact absurd rfl hne
        | cons a t => rfl
      dsimp only
      rw [hempty]
      rfl

/-- Claim C9 witness: a record whose name has both a matching addresses
line and a matching accepting line; the stored entries agree with the
claim's determinations. -/
theorem C9_address_and_accepting_determination_witness :
    ((⟨"A".data, false,
        [("printer-is-accepting-jobs".data, "true".data),
         ("device-uri".data, "sock".data)]⟩ : PrinterDetails) ∈
      extractPrinters
        ⟨"printer A".data, "A accepting".data, "device for A: sock".data, [], []⟩) ∧
    (jsGet "device-uri".data
        [("printer-is-accepting-jobs".data, "true".data),
         ("device-uri".data, "sock".data)] =
      some (spec_deviceAddress "device for A: sock".data "A".data) ∧
     jsGet "printer-is-accepting-jobs".data
        [("printer-is-accepting-jobs".data, "true".data),
         ("device-uri".data, "sock".data)] =
      some (if spec_acceptingFlag "A accepting".data "A".data then "true".data
            else "false".data)) := by
  have h := C9_address_and_accepting_determination
    ⟨"printer A".data, "A accepting".data, "device for A: sock".data, [], []⟩
    ⟨"A".data, false,
      [("printer-is-accepting-jobs".data, "true".data),
       ("device-uri".data, "sock".data)]⟩ (by decide)
  exact ⟨by decide, h.1, h.2⟩

end Cups
